import Mathlib

/-!
# Verification of the gofetch fetch pipeline

Shallow embedding of the core fetch pipeline of StacklokLabs/gofetch:
robots gating (`FetchURL`), HTTP retrieval and classification (`fetchURLGo`),
HTML-to-Markdown transformation (`ProcessHTML`), and pagination
(`FormatContent`).

Go strings are byte sequences; we model them as `List Nat` of byte values.
Go slicing panics are modeled by an `Option` result (`none` = runtime panic).
External library calls (net/http, readability, html-to-markdown) are modeled
as oracle functions supplied as parameters.
-/

namespace GoFetch

/-- UTF-8 encoding of a single Unicode code point, as Go produces when
converting a rune to a string. -/
def utf8EncodeRune (n : Nat) : List Nat :=
  if n < 0x80 then [n]
  else if n < 0x800 then [0xC0 + n / 0x40, 0x80 + n % 0x40]
  else if n < 0x10000 then
    [0xE0 + n / 0x1000, 0x80 + (n / 0x40) % 0x40, 0x80 + n % 0x40]
  else
    [0xF0 + n / 0x40000, 0x80 + (n / 0x1000) % 0x40,
     0x80 + (n / 0x40) % 0x40, 0x80 + n % 0x40]

/-- UTF-8 encoding of a string: the byte sequence a Go `string` literal
with these characters holds. -/
def utf8Encode (s : String) : List Nat :=
  (s.data.map (fun c => utf8EncodeRune c.toNat)).flatten

/-- The fixed truncation marker appended by `ContentProcessor.FormatContent`
(processor.go): `"\n\n[Content truncated. Use start_index to get more content.]"`. -/
def truncationMarker : String :=
  "\n\n[Content truncated. Use start_index to get more content.]"

/-- The marker's bytes (it is pure ASCII). -/
def truncationMarkerBytes : List Nat := utf8Encode truncationMarker

/-- `ContentProcessor.FormatContent(content, startIndex, maxLength)` from
`pkg/processor` (src/unnamed/part_002 lines 424-444), byte-faithful:

```go
start := 0
if startIndex != nil { start = *startIndex }
if start > len(content) { start = len(content) }
content = content[start:]
if maxLength != nil && len(content) > *maxLength {
    content = content[:*maxLength]
    content += "\n\n[Content truncated. Use start_index to get more content.]"
}
return content
```

`len` and slicing in Go act on bytes. `content[start:]` panics when
`start < 0`, and `content[:m]` panics when `m < 0`; a panic is `none`. -/
def FormatContent (content : List Nat) (startIndex maxLength : Option Int) :
    Option (List Nat) :=
  let start : Int := match startIndex with
    | some s => s
    | none => 0
  let start : Int := if start > (content.length : Int) then (content.length : Int) else start
  if start < 0 then none
  else
    let content := content.drop start.toNat
    match maxLength with
    | some m =>
        if (content.length : Int) > m then
          if m < 0 then none
          else some (content.take m.toNat ++ truncationMarkerBytes)
        else some content
    | none => some content

/-- `strings.Contains(s, substr)` from Go's standard library: byte-level
substring containment. -/
def goContains (s sub : List Nat) : Bool :=
  sub.isPrefixOf s ||
    match s with
    | [] => false
    | _ :: t => goContains t sub

/-- Oracle bundle for the three external libraries `ProcessHTML` calls:
`html.Parse` (golang.org/x/net/html), `readability.FromDocument`
(go-shiori/go-readability) and `htmltomarkdown.ConvertString`
(JohannesKaufmann/html-to-markdown/v2). `none` models the call returning a
non-nil error; the parsed document and the article content are kept as
opaque byte data. `fromDocument` yields the `article.Content` field on
success. -/
structure HTMLLibs where
  parse : List Nat → Option (List Nat)
  fromDocument : List Nat → Option (List Nat)
  convertString : List Nat → Option (List Nat)

/-- The readability step of `ContentProcessor.ProcessHTML`:

```go
article, err := readability.FromDocument(doc, nil)
if err == nil && article.Content != "" { htmlContent = article.Content }
```

yielding the working content after the (possible) reassignment. -/
def readabilityFallback (libs : HTMLLibs) (htmlContent doc : List Nat) :
    List Nat :=
  match libs.fromDocument doc with
  | some articleContent =>
      if articleContent ≠ [] then articleContent else htmlContent
  | none => htmlContent

/-- `ContentProcessor.ProcessHTML(htmlContent)` (src/unnamed/part_002 lines
401-421):

```go
doc, err := html.Parse(strings.NewReader(htmlContent))
if err != nil { return htmlContent }
article, err := readability.FromDocument(doc, nil)
if err == nil && article.Content != "" { htmlContent = article.Content }
markdown, err := htmltomarkdown.ConvertString(htmlContent)
if err != nil { return htmlContent }
return markdown
```

Note the reassignment of `htmlContent` before the conversion step: if
conversion fails after readability succeeded with nonempty content, the
returned fallback is the extracted content, not the original input. -/
def ProcessHTML (libs : HTMLLibs) (htmlContent : List Nat) : List Nat :=
  match libs.parse htmlContent with
  | none => htmlContent
  | some doc =>
    let htmlContent := readabilityFallback libs htmlContent doc
    match libs.convertString htmlContent with
    | none => htmlContent
    | some markdown => markdown

/-- Typed rendering of the error values `HTTPFetcher.FetchURL` /
`HTTPFetcher.fetchURL` build with `fmt.Errorf` (fetcher.go): one
constructor per distinct `return "", fmt.Errorf(...)` site. -/
inductive FetchError
  | robotsDisallowed (url : String)
  | createRequestFailed (msg : String)
  | networkError (msg : String)
  | httpStatusError (code : Nat) (status : String)
  | readBodyFailed (msg : String)
deriving DecidableEq, Repr

/-- An HTTP response as `fetchURL` observes it: `resp.StatusCode`,
`resp.Status`, the `Content-Type` header value, and the body bytes that
`io.ReadAll` would produce. -/
structure HTTPResponse where
  statusCode : Nat
  status : String
  contentType : List Nat
  body : List Nat

/-- Outcome oracle for the request phase of `fetchURL`: `http.NewRequest`
failing, `httpClient.Do` failing, or a response arriving (with `readErr`
modeling `io.ReadAll` failing on its body). -/
inductive RespOutcome
  | reqCreateFail (msg : String)
  | netFail (msg : String)
  | ok (r : HTTPResponse) (readErr : Option String)

/-- Network actions the fetcher performs, for stating that a stage is or is
not reached. `contentRequest` is the `httpClient.Do` call of the content GET
in `fetchURL`; `robotsCheck` is the `robotsChecker.IsAllowed` call. -/
inductive NetAction
  | robotsCheck (url : String)
  | contentRequest (url : String)
deriving DecidableEq, Repr

/-- `HTTPFetcher.fetchURL(url, raw)` (fetcher.go lines 89-147), paired with
the list of network actions it performs:

```go
req, err := http.NewRequest("GET", url, nil)
if err != nil { return "", fmt.Errorf(...) }
req.Header.Set(...)
resp, err := f.httpClient.Do(req)
if err != nil { return "", fmt.Errorf(...) }
if resp.StatusCode != http.StatusOK { return "", fmt.Errorf("HTTP %d: %s", ...) }
body, err := io.ReadAll(resp.Body)
if err != nil { return "", fmt.Errorf(...) }
content := string(body)
if !raw && strings.Contains(resp.Header.Get("Content-Type"), "text/html") {
    content = f.processor.ProcessHTML(content)
}
return content, nil
``` -/
def fetchURLGo (url : String) (outcome : RespOutcome) (libs : HTMLLibs)
    (raw : Bool) : (List Nat × Option FetchError) × List NetAction :=
  match outcome with
  | .reqCreateFail m => (([], some (.createRequestFailed m)), [])
  | .netFail m => (([], some (.networkError m)), [.contentRequest url])
  | .ok r readErr =>
      if r.statusCode ≠ 200 then
        (([], some (.httpStatusError r.statusCode r.status)), [.contentRequest url])
      else
        match readErr with
        | some m => (([], some (.readBodyFailed m)), [.contentRequest url])
        | none =>
            let content := r.body
            let content :=
              if ¬ raw ∧ goContains r.contentType (utf8Encode "text/html") then
                ProcessHTML libs content
              else content
            ((content, none), [.contentRequest url])

/-- `fetcher.FetchRequest` (fetcher.go lines 45-50). -/
structure FetchRequest where
  url : String
  maxLength : Option Int
  startIndex : Option Int
  raw : Bool

/-- `HTTPFetcher.FetchURL(req)` (fetcher.go lines 53-86), paired with the
network actions performed; `none` is a runtime panic (only possible inside
`FormatContent`):

```go
if !f.robotsChecker.IsAllowed(req.URL) {
    return "", fmt.Errorf("access to %s is disallowed by robots.txt", req.URL)
}
content, err := f.fetchURL(req.URL, req.Raw)
if err != nil { return "", err }
formattedContent := f.processor.FormatContent(content, req.StartIndex, req.MaxLength)
return formattedContent, nil
```

`isAllowed` is the oracle for `robotsChecker.IsAllowed`. -/
def FetchURL (isAllowed : String → Bool) (outcome : RespOutcome)
    (libs : HTMLLibs) (req : FetchRequest) :
    Option ((List Nat × Option FetchError) × List NetAction) :=
  if ¬ isAllowed req.url then
    some (([], some (.robotsDisallowed req.url)), [.robotsCheck req.url])
  else
    match fetchURLGo req.url outcome libs req.raw with
    | ((_, some e), acts) => some (([], some e), .robotsCheck req.url :: acts)
    | ((content, none), acts) =>
        (FormatContent content req.startIndex req.maxLength).map
          (fun fc => ((fc, none), .robotsCheck req.url :: acts))

/-- Modelled from the spec: `robots.Checker` (package `pkg/robots`, absent
from the sources; only its constructor call
`robots.NewChecker(cfg.UserAgent, cfg.IgnoreRobots, client)` and the
`IsAllowed` call site appear). `ignoreRobots` is the bypass flag
(`-ignore-robots-txt`); `policyAllows` abstracts the cached per-origin
robots policy evaluation. -/
structure Checker where
  userAgent : String
  ignoreRobots : Bool
  policyAllows : String → Bool

/-- Modelled from the spec: `robots.Checker.IsAllowed(url)` — "When a
bypass flag is configured, always returns true without any network
access. Otherwise ... evaluate against" the origin's policy. -/
def Checker.IsAllowed (c : Checker) (url : String) : Bool :=
  if c.ignoreRobots then true else c.policyAllows url

/-- The truncation marker as a sequence of code points (it is ASCII, so
these coincide numerically with its bytes). -/
def markerRunes : List Nat := truncationMarker.data.map (fun c => c.toNat)

/-- Follows the spec's words for the Paginator contract (§4.4), applied to a
sequence of units `units` (the spec counts Unicode code points): startIndex
clamped into `[0, length]`, then a cut to `maxLength` units with the marker
appended when the remainder exceeds `maxLength`; total, never an error. -/
def SliceSpec (units : List Nat) (startIndex maxLength : Option Int) :
    List Nat :=
  let len : Int := units.length
  let start : Int := match startIndex with
    | some s => s
    | none => 0
  let start : Int := if start > len then len else start
  let start : Int := if start < 0 then 0 else start
  let rest := units.drop start.toNat
  match maxLength with
  | some m =>
      if (rest.length : Int) > m then rest.take m.toNat ++ markerRunes
      else rest
  | none => rest

/-! ## Helper lemmas -/

lemma markerRunes_eq_bytes : markerRunes = truncationMarkerBytes := by decide

lemma marker_length : truncationMarkerBytes.length = 59 := by decide

lemma clamp_drop (content : List Nat) (si : Int) (hsi : 0 ≤ si) :
    content.drop
      (if si > (content.length : Int) then (content.length : Int) else si).toNat
      = content.drop si.toNat := by
  split_ifs with h
  · have h2 : content.length ≤ si.toNat := by omega
    have h3 : ((content.length : Int)).toNat = content.length := by omega
    rw [h3, List.drop_length, List.drop_eq_nil_of_le h2]
  · rfl

/-- On non-negative arguments `FormatContent` never panics and computes the
spec's `Slice` contract with units taken to be bytes. -/
lemma formatContent_eq_sliceSpec (content : List Nat) (si ml : Option Int)
    (hsi : ∀ s, si = some s → 0 ≤ s) (hml : ∀ m, ml = some m → 0 ≤ m) :
    FormatContent content si ml = some (SliceSpec content si ml) := by
  rcases si with _ | s <;> rcases ml with _ | m
  · simp only [FormatContent, SliceSpec, markerRunes_eq_bytes]
    split_ifs <;> first | rfl | (exfalso; omega)
  · have hm : 0 ≤ m := hml m rfl
    simp only [FormatContent, SliceSpec, markerRunes_eq_bytes]
    split_ifs <;> first | rfl | (exfalso; omega)
  · have hs : 0 ≤ s := hsi s rfl
    simp only [FormatContent, SliceSpec, markerRunes_eq_bytes]
    split_ifs <;> first | rfl | (exfalso; omega)
  · have hs : 0 ≤ s := hsi s rfl
    have hm : 0 ≤ m := hml m rfl
    simp only [FormatContent, SliceSpec, markerRunes_eq_bytes]
    split_ifs <;> first | rfl | (exfalso; omega)

lemma formatContent_drop (content : List Nat) (si : Int) (hsi : 0 ≤ si) :
    FormatContent content (some si) none = some (content.drop si.toNat) := by
  have hc : ¬ ((if si > (content.length : Int) then (content.length : Int)
      else si) < 0) := by
    split_ifs <;> omega
  simp only [FormatContent, if_neg hc]
  rw [clamp_drop content si hsi]

lemma formatContent_fits (content : List Nat) (si ml : Int) (hsi : 0 ≤ si)
    (hfits : ((content.drop si.toNat).length : Int) ≤ ml) :
    FormatContent content (some si) (some ml)
      = some (content.drop si.toNat) := by
  have hc : ¬ ((if si > (content.length : Int) then (content.length : Int)
      else si) < 0) := by
    split_ifs <;> omega
  simp only [FormatContent, if_neg hc]
  rw [clamp_drop content si hsi]
  rw [if_neg (by omega : ¬ ((content.drop si.toNat).length : Int) > ml)]

lemma formatContent_truncates (content : List Nat) (si ml : Int)
    (hsi : 0 ≤ si) (hml : 0 ≤ ml)
    (hex : ml < ((content.drop si.toNat).length : Int)) :
    FormatContent content (some si) (some ml)
      = some ((content.drop si.toNat).take ml.toNat ++ truncationMarkerBytes) := by
  have hc : ¬ ((if si > (content.length : Int) then (content.length : Int)
      else si) < 0) := by
    split_ifs <;> omega
  simp only [FormatContent, if_neg hc]
  rw [clamp_drop content si hsi]
  rw [if_pos (by omega : ((content.drop si.toNat).length : Int) > ml)]
  rw [if_neg (by omega : ¬ (ml < 0))]

/-! ## Claim theorems -/

/-- C3, counterexample. The character é is one code point encoded as the two
bytes `[0xC3, 0xA9]`. With maxLength 1, counting in code points would return
it whole (as `SliceSpec` on the code-point sequence `[0xE9]` does), but
`FormatContent` cuts after the first byte, splitting the character: the
claim that the cut is counted in code points and never splits a multi-byte
character is false on this input. -/
theorem formatContent_codepoints_cx :
    FormatContent (([0xE9].map utf8EncodeRune).flatten) none (some 1)
      ≠ some (((SliceSpec [0xE9] none (some 1)).map utf8EncodeRune).flatten)
    ∧ FormatContent (([0xE9].map utf8EncodeRune).flatten) none (some 1)
      = some (0xC3 :: truncationMarkerBytes) := by decide

/-- C3, amended: `FormatContent` operates over the content as a sequence of
bytes (UTF-8 code units): for non-negative arguments it computes exactly the
spec's `Slice` contract with the start offset and the maxLength cut counted
in bytes, so a multi-byte character can be split at the cut. -/
theorem formatContent_byte_units (content : List Nat) (si ml : Option Int)
    (hsi : ∀ s, si = some s → 0 ≤ s) (hml : ∀ m, ml = some m → 0 ≤ m) :
    FormatContent content si ml = some (SliceSpec content si ml) :=
  formatContent_eq_sliceSpec content si ml hsi hml

/-- C3, witness for the amended theorem at a concrete input. -/
theorem formatContent_byte_units_witness :
    FormatContent (utf8Encode "ab") (some 1) (some 5)
      = some (SliceSpec (utf8Encode "ab") (some 1) (some 5)) :=
  formatContent_byte_units (utf8Encode "ab") (some 1) (some 5)
    (by intro s hs; cases hs; decide) (by intro m hm; cases hm; decide)

/-- C5, counterexample. "é" has one code point but two bytes; with
startIndex 0 and maxLength equal to its code-point length (1), the code
truncates and appends the marker instead of returning the content
unchanged. -/
theorem slice_identity_codepoints_cx :
    "é".data.length = 1
    ∧ FormatContent (utf8Encode "é") (some 0) (some 1)
        ≠ some (utf8Encode "é") := by decide

/-- C5, amended: the slice with start 0 and maxLength equal to the content's
byte length is the identity:
`FormatContent content (some 0) (some content.length) = some content`. -/
theorem slice_identity_bytes (content : List Nat) :
    FormatContent content (some 0) (some (content.length : Int))
      = some content := by
  have h := formatContent_fits content 0 (content.length : Int)
    (by omega) (by simp)
  simpa using h

/-- C6, counterexample. The claim says every supplied startIndex is clamped
into `[0, length(content)]`; clamping -1 to 0 would return the whole
content (as `SliceSpec` does), but the code only clamps from above and
`content[start:]` faults on a negative index (modeled as `none`). -/
theorem start_clamp_cx :
    FormatContent [65] (some (-1)) none = none
    ∧ SliceSpec [65] (some (-1)) none = [65]
    ∧ FormatContent [65] (some (-1)) none
        ≠ some (SliceSpec [65] (some (-1)) none) := by decide

/-- C6, amended: for every non-negative supplied startIndex, the Paginator
clamps it from above to the content's byte length (the result is the drop
of `startIndex` bytes), and a startIndex at or beyond the byte end yields an
empty string rather than an error; a negative startIndex is not clamped. -/
theorem start_clamp_bytes (content : List Nat) (si : Int) (hsi : 0 ≤ si) :
    FormatContent content (some si) none = some (content.drop si.toNat)
    ∧ ((content.length : Int) ≤ si →
        FormatContent content (some si) none = some []) := by
  have h1 := formatContent_drop content si hsi
  refine ⟨h1, fun hle => ?_⟩
  rw [h1, List.drop_eq_nil_of_le (by omega : content.length ≤ si.toNat)]

/-- C6, witness at a concrete input: startIndex 7 is beyond the end of a
2-byte content and yields the empty string. -/
theorem start_clamp_bytes_witness :
    FormatContent [65, 66] (some 7) none = some [] :=
  (start_clamp_bytes [65, 66] 7 (by decide)).2 (by decide)

/-- C7: `Slice("abcdefghij", 0, 5)` is exactly `"abcde"` followed by the
fixed marker; and no marker is appended when the remaining content fits
within the limit or when no limit is given (the result is then exactly the
byte slice after the start offset). -/
theorem slice_truncation_spec :
    FormatContent (utf8Encode "abcdefghij") (some 0) (some 5)
      = some (utf8Encode "abcde" ++ truncationMarkerBytes)
    ∧ (∀ (content : List Nat) (si ml : Int), 0 ≤ si →
        ((content.drop si.toNat).length : Int) ≤ ml →
        FormatContent content (some si) (some ml)
          = some (content.drop si.toNat))
    ∧ (∀ (content : List Nat) (si : Int), 0 ≤ si →
        FormatContent content (some si) none
          = some (content.drop si.toNat)) := by
  refine ⟨by decide, ?_, ?_⟩
  · intro content si ml hsi hfits
    exact formatContent_fits content si ml hsi hfits
  · intro content si hsi
    exact formatContent_drop content si hsi

/-- C7, witness for the fits-within-limit part at a concrete input. -/
theorem slice_truncation_spec_witness :
    FormatContent (utf8Encode "ab") (some 0) (some 99)
      = some ((utf8Encode "ab").drop (0 : Int).toNat) :=
  slice_truncation_spec.2.1 (utf8Encode "ab") 0 99 (by decide) (by decide)

/-- C8: `FormatContent` is total for every content, every non-negative (or
absent) startIndex and every positive (or absent) maxLength — it always
returns a string and never faults. -/
theorem formatContent_total (content : List Nat) (si ml : Option Int)
    (hsi : ∀ s, si = some s → 0 ≤ s) (hml : ∀ m, ml = some m → 0 < m) :
    ∃ r, FormatContent content si ml = some r :=
  ⟨_, formatContent_eq_sliceSpec content si ml hsi
    (fun m hm => le_of_lt (hml m hm))⟩

/-- C8, witness at a concrete input. -/
theorem formatContent_total_witness :
    ∃ r, FormatContent [1, 2] (some 1) (some 1) = some r :=
  formatContent_total [1, 2] (some 1) (some 1)
    (by intro s hs; cases hs; decide) (by intro m hm; cases hm; decide)

/-- C10, counterexample. The truncation marker is 59 characters long
(`"\n\n"` plus a 57-character bracketed sentence), not 58: truncating
10 bytes to maxLength 5 returns 64 = 5 + 59 characters, not 5 + 58. -/
theorem truncation_marker_58_cx :
    (FormatContent (utf8Encode "abcdefghij") (some 0) (some 5)).map
        List.length = some 64
    ∧ (64 : Nat) ≠ 5 + 58 := by decide

/-- C10, amended: whenever truncation occurs (maxLength set and the
remaining content after the start offset exceeds it), the result is exactly
the maxLength-byte cut plus the 59-character marker, so its length is
maxLength + 59 — strictly longer than maxLength, which bounds only the
content portion. -/
theorem truncation_marker_59 (content : List Nat) (si ml : Int)
    (hsi : 0 ≤ si) (hml : 0 ≤ ml)
    (hex : ml < ((content.drop si.toNat).length : Int)) :
    FormatContent content (some si) (some ml)
      = some ((content.drop si.toNat).take ml.toNat ++ truncationMarkerBytes)
    ∧ ((content.drop si.toNat).take ml.toNat ++ truncationMarkerBytes).length
        = ml.toNat + 59
    ∧ ml.toNat
      < ((content.drop si.toNat).take ml.toNat
          ++ truncationMarkerBytes).length := by
  refine ⟨formatContent_truncates content si ml hsi hml hex, ?_, ?_⟩
  · rw [List.length_append, marker_length, List.length_take]
    omega
  · rw [List.length_append, marker_length, List.length_take]
    omega

/-- C1: when the robots checker reports a URL disallowed, `FetchURL` returns
exactly the robots error, the content HTTP request is never issued (only
the robots check appears among the performed network actions), and when the
bypass flag (`IgnoreRobots`) is configured, `Checker.IsAllowed` is true for
every URL. -/
theorem robots_gate_blocks (isAllowed : String → Bool) (outcome : RespOutcome)
    (libs : HTMLLibs) (req : FetchRequest)
    (hd : isAllowed req.url = false) :
    FetchURL isAllowed outcome libs req
      = some (([], some (.robotsDisallowed req.url)), [.robotsCheck req.url])
    ∧ (∀ (res : List Nat × Option FetchError) (acts : List NetAction),
        FetchURL isAllowed outcome libs req = some (res, acts) →
        ∀ u, NetAction.contentRequest u ∉ acts)
    ∧ (∀ (c : Checker) (u : String), c.ignoreRobots = true →
        c.IsAllowed u = true) := by
  have h1 : FetchURL isAllowed outcome libs req
      = some (([], some (.robotsDisallowed req.url)), [.robotsCheck req.url]) := by
    simp [FetchURL, hd]
  refine ⟨h1, ?_, ?_⟩
  · intro res acts hres u
    rw [h1] at hres
    injection hres with h2
    injection h2 with h2a h2b
    subst h2b
    simp
  · intro c u hc
    simp [Checker.IsAllowed, hc]

/-- C1, witness at a concrete disallowed request. -/
theorem robots_gate_blocks_witness :
    FetchURL (fun _ => false) (.netFail "x")
        ⟨fun _ => none, fun _ => none, fun _ => none⟩
        ⟨"http://e.com/p", none, none, false⟩
      = some (([], some (.robotsDisallowed "http://e.com/p")),
          [.robotsCheck "http://e.com/p"]) :=
  (robots_gate_blocks (fun _ => false) (.netFail "x")
    ⟨fun _ => none, fun _ => none, fun _ => none⟩
    ⟨"http://e.com/p", none, none, false⟩ rfl).1

/-- C2: every defined `FetchURL` outcome is either content with no error or
an error with empty content, never both; and a 404 response yields exactly
the HTTP status error carrying code 404 with empty content. -/
theorem fetch_result_exclusive :
    (∀ (isAllowed : String → Bool) (outcome : RespOutcome) (libs : HTMLLibs)
        (req : FetchRequest) (res : List Nat × Option FetchError)
        (acts : List NetAction),
        FetchURL isAllowed outcome libs req = some (res, acts) →
        res.2 = none ∨ (res.1 = [] ∧ res.2 ≠ none))
    ∧ (∀ (isAllowed : String → Bool) (libs : HTMLLibs) (req : FetchRequest)
        (st : String) (ct body : List Nat) (readErr : Option String),
        isAllowed req.url = true →
        FetchURL isAllowed (.ok ⟨404, st, ct, body⟩ readErr) libs req
          = some (([], some (.httpStatusError 404 st)),
              [.robotsCheck req.url, .contentRequest req.url])) := by
  constructor
  · intro ia outcome libs req res acts h
    by_cases hia : ia req.url
    · rcases hgo : fetchURLGo req.url outcome libs req.raw with ⟨⟨content, err⟩, acts'⟩
      cases err with
      | none =>
          simp only [FetchURL, hia, not_true_eq_false, if_neg, ite_false, hgo] at h
          rw [Option.map_eq_some'] at h
          obtain ⟨fc, _, hres⟩ := h
          left
          injection hres with ha hb
          rw [← ha]
      | some e =>
          simp only [FetchURL, hia, not_true_eq_false, if_neg, ite_false, hgo] at h
          right
          injection h with h2
          injection h2 with h2a h2b
          rw [← h2a]
          exact ⟨rfl, by simp⟩
    · simp only [Bool.not_eq_true] at hia
      simp only [FetchURL, hia] at h
      right
      injection h with h2
      injection h2 with h2a h2b
      rw [← h2a]
      exact ⟨rfl, by simp⟩
  · intro ia libs req st ct body readErr hia
    simp [FetchURL, fetchURLGo, hia]

/-- C2, witness: the exclusivity part applied at a concrete 404 outcome, and
the 404 part at a concrete request. -/
theorem fetch_result_exclusive_witness :
    (([] : List Nat), some (FetchError.httpStatusError 404 "404 Not Found")).2
        = none
      ∨ ((([] : List Nat), some (FetchError.httpStatusError 404 "404 Not Found")).1
          = []
        ∧ (([] : List Nat), some (FetchError.httpStatusError 404 "404 Not Found")).2
          ≠ none) :=
  fetch_result_exclusive.1 (fun _ => true)
    (.ok ⟨404, "404 Not Found", [], []⟩ none)
    ⟨fun _ => none, fun _ => none, fun _ => none⟩
    ⟨"http://e.com", none, none, false⟩
    ([], some (.httpStatusError 404 "404 Not Found"))
    [.robotsCheck "http://e.com", .contentRequest "http://e.com"]
    (fetch_result_exclusive.2 (fun _ => true)
      ⟨fun _ => none, fun _ => none, fun _ => none⟩
      ⟨"http://e.com", none, none, false⟩ "404 Not Found" [] [] none rfl)

/-- C4, counterexample. With parsing succeeding, readability extracting the
nonempty content `[65]` from the input `[66]`, and Markdown conversion
failing, `ProcessHTML` returns `[65]` — the readability-extracted content —
not the original input `[66]`: the claim that any internal failure falls
back to the original HTML unchanged is false on this input. -/
theorem processHTML_fallback_cx :
    ProcessHTML ⟨fun d => some d, fun _ => some [65], fun _ => none⟩ [66]
      = [65]
    ∧ HTMLLibs.convertString
        ⟨fun d => some d, fun _ => some [65], fun _ => none⟩ [65] = none
    ∧ ([65] : List Nat) ≠ [66] := by
  refine ⟨by decide, rfl, by decide⟩

/-- C4, amended: any internal transformer failure is absorbed —
`ProcessHTML` returns its input unchanged when HTML parsing fails, returns
the current working content (the original input, or the readability
extraction if that step produced nonempty content) when Markdown conversion
fails, and in all cases a transform failure never fails the overall fetch
(a 200 response with readable body yields no error whatever the transformer
does). -/
theorem processHTML_absorbs_failures (libs : HTMLLibs) (content : List Nat) :
    (libs.parse content = none → ProcessHTML libs content = content)
    ∧ (∀ doc, libs.parse content = some doc →
        libs.convertString (readabilityFallback libs content doc) = none →
        ProcessHTML libs content = readabilityFallback libs content doc)
    ∧ (∀ (url : String) (r : HTTPResponse) (raw : Bool),
        r.statusCode = 200 →
        (fetchURLGo url (.ok r none) libs raw).1.2 = none) := by
    refine ⟨?_, ?_, ?_⟩
    · intro hp
      simp [ProcessHTML, hp]
    · intro doc hp hconv
      simp [ProcessHTML, hp, hconv]
    · intro url r raw h200
      simp only [fetchURLGo, h200]
      simp

/-- C4, witness: parse failure at a concrete input returns the input. -/
theorem processHTML_absorbs_failures_witness :
    ProcessHTML ⟨fun _ => none, fun _ => none, fun _ => none⟩ [7] = [7] :=
  (processHTML_absorbs_failures
    ⟨fun _ => none, fun _ => none, fun _ => none⟩ [7]).1 rfl

/-- C9: for a successful (200, readable-body) response, `raw = true` returns
the decoded body unmodified even when the content type indicates HTML; and
for a content type not containing "text/html" the body passes through
unmodified for any raw flag. -/
theorem raw_passthrough :
    (∀ (url : String) (libs : HTMLLibs) (r : HTTPResponse),
        r.statusCode = 200 →
        fetchURLGo url (.ok r none) libs true
          = ((r.body, none), [.contentRequest url]))
    ∧ (∀ (url : String) (libs : HTMLLibs) (r : HTTPResponse) (raw : Bool),
        r.statusCode = 200 →
        goContains r.contentType (utf8Encode "text/html") = false →
        fetchURLGo url (.ok r none) libs raw
          = ((r.body, none), [.contentRequest url])) := by
  constructor
  · intro url libs r h200
    simp [fetchURLGo, h200]
  · intro url libs r raw h200 hct
    simp [fetchURLGo, h200, hct]

/-- C9, witness: a concrete HTML-typed 200 response with raw=true yields the
body unchanged. -/
theorem raw_passthrough_witness :
    fetchURLGo "http://e.com" (.ok ⟨200, "200 OK", utf8Encode "text/html",
        [60, 112, 62]⟩ none) ⟨fun _ => none, fun _ => none, fun _ => none⟩
        true
      = (([60, 112, 62], none), [.contentRequest "http://e.com"]) :=
  raw_passthrough.1 "http://e.com"
    ⟨fun _ => none, fun _ => none, fun _ => none⟩
    ⟨200, "200 OK", utf8Encode "text/html", [60, 112, 62]⟩ rfl

/-- C10, witness for the amended theorem at a concrete input. -/
theorem truncation_marker_59_witness :
    FormatContent (utf8Encode "abcdefghij") (some 0) (some 5)
      = some (((utf8Encode "abcdefghij").drop (0 : Int).toNat).take
          (5 : Int).toNat ++ truncationMarkerBytes) :=
  (truncation_marker_59 (utf8Encode "abcdefghij") 0 5 (by decide) (by decide)
    (by decide)).1

end GoFetch
